import Mathlib

/-!
Verification development for the zrepl replication endpoint pair.

The Go sources are shallowly embedded: Go strings are `List Char`, dataset
paths are lists of components (`List (List Char)`), external `zfs` CLI calls
are oracles packaged in environment records, and fallible Go functions return
`Except`/`Option` or a state-and-error pair. Definitions carry the name of the
Go function they embed and a pointer to its location in the source tree.
-/

namespace ZRepl

/-- A dataset path component (one textual path component between slashes),
modelled as a list of characters. -/
abbrev Comp := List Char

/-- `DatasetPath` (src/zfs/zfs.go:33): an ordered sequence of components. -/
abbrev DatasetPath := List Comp

/-- The forbidden characters of `NewDatasetPath` (src/zfs/zfs.go:131):
`@ # | TAB < > *`. -/
def forbiddenChars : List Char := ['@', '#', '|', '\t', '<', '>', '*']

/-- Go `strings.ContainsAny(s, FORBIDDEN)` as used in src/zfs/zfs.go:138. -/
def containsForbidden (s : List Char) : Bool :=
  s.any (fun c => forbiddenChars.contains c)

/-- Go `strings.Split(s, "/")` (src/zfs/zfs.go:142) for the one-character
separator `/`. On the empty string it yields one empty component, as in Go. -/
def splitSlash : List Char → List (List Char)
  | [] => [[]]
  | c :: rest =>
    if c = '/' then [] :: splitSlash rest
    else
      match splitSlash rest with
      | [] => [[c]]
      | comp :: comps => (c :: comp) :: comps

/-- `DatasetPath.ToString` (src/zfs/zfs.go:37): join the components with `/`. -/
def dpToString : DatasetPath → List Char
  | [] => []
  | [c] => c
  | c :: c' :: cs => c ++ '/' :: dpToString (c' :: cs)

/-- `NewDatasetPath` (src/zfs/zfs.go:125): the empty string is the empty path;
otherwise reject forbidden characters, split on `/`, and reject an empty final
component (a trailing `/`). -/
def NewDatasetPath (s : List Char) : Except String DatasetPath :=
  if s = [] then .ok []
  else if containsForbidden s then
    .error "contains forbidden characters"
  else if (splitSlash s).getLast? = some [] then .error "must not end with a '/'"
  else .ok (splitSlash s)

/-- `DatasetPath.HasPrefix` (src/zfs/zfs.go:49): `dpHasPre p pre` is true iff
`p` has `pre` as a (component-wise) prefix. The Go code compares lengths and
then components at equal indices; this recursion is equivalent. -/
def dpHasPre : DatasetPath → DatasetPath → Bool
  | _, [] => true
  | [], _ :: _ => false
  | a :: p, b :: q => a == b && dpHasPre p q

/-- `DatasetPath.Equal` (src/zfs/zfs.go:85): length check plus component-wise
comparison, i.e. structural equality of the component lists. -/
def dpEqual (p q : DatasetPath) : Bool := p == q

/-- `DatasetPath.TrimPrefix` (src/zfs/zfs.go:61): a no-op when `pre` is not a
prefix, otherwise drop the first `pre.length` components. -/
def dpTrimPre (p pre : DatasetPath) : DatasetPath :=
  if dpHasPre p pre then p.drop pre.length else p

/-- `subroot.Filter` (src/unnamed/part_000:331): pass `p` iff `p` has the
local root as a prefix and is not equal to it. -/
def subrootFilter (localRoot p : DatasetPath) : Bool :=
  dpHasPre p localRoot && !(dpEqual p localRoot)

/-- `subroot.MapToLocal` (src/unnamed/part_000:335): parse the client-relative
filesystem name, reject the empty path, and prepend the local root
(`c := f.localRoot.Copy(); c.Extend(p)`). -/
def subrootMapToLocal (localRoot : DatasetPath) (fs : List Char) :
    Except String DatasetPath :=
  match NewDatasetPath fs with
  | .error e => .error e
  | .ok p =>
    if p.length = 0 then .error "cannot map empty filesystem"
    else .ok (localRoot ++ p)

/-! ## Stream copier (src/zfs/zfs.go:353-408) -/

/-- An error observed by a `Read` of the wrapped stream; `eof` models Go's
`io.EOF` sentinel. -/
inductive IOErr
  | eof
  | err (msg : String)
deriving DecidableEq

/-- The outcome of one `Read` call of the underlying stream: the number of
bytes read and the error value returned alongside them. -/
structure ReadRes where
  n : Nat
  e : Option IOErr
deriving DecidableEq

/-- The error value with which Go's `io.Copy` loop terminates: either the
error of the failing source read or the error of the failing sink write. -/
inductive GoErr
  | fromRead (e : IOErr)
  | fromWrite (msg : String)
deriving DecidableEq

/-- Go's `io.Copy(w, &c.recorder)` loop as driven by
`sendStreamCopier.WriteStreamTo` (src/zfs/zfs.go:388), together with the
`readErrRecorder` (src/zfs/zfs.go:378) that records the error value of every
read. The source is a list of read outcomes (reading past the end yields
`(0, io.EOF)`), the sink is a map from the write index to an optional write
error. Returns Go's copy error paired with the recorder's final `readErr`. -/
def copyLoop (sink : Nat → Option String) :
    List ReadRes → Nat → Option GoErr × Option IOErr
  | [], _ => (none, some .eof)
  | r :: rs, wi =>
    if r.n > 0 then
      match sink wi with
      | some ew => (some (.fromWrite ew), r.e)
      | none =>
        match r.e with
        | none => copyLoop sink rs (wi + 1)
        | some .eof => (none, some .eof)
        | some (.err m) => (some (.fromRead (.err m)), some (.err m))
    else
      match r.e with
      | none => copyLoop sink rs wi
      | some .eof => (none, some .eof)
      | some (.err m) => (some (.fromRead (.err m)), some (.err m))

/-- `sendStreamCopierError` (src/zfs/zfs.go:362): the copier error is either a
read error (carrying the recorded read error) or a write error (carrying the
copy error). -/
inductive CopierErr
  | readError (e : Option IOErr)
  | writeError (e : GoErr)
deriving DecidableEq

/-- `sendStreamCopierError.IsReadError` (src/zfs/zfs.go:375). -/
def isReadErrorKind : CopierErr → Bool
  | .readError _ => true
  | .writeError _ => false

/-- `sendStreamCopier.WriteStreamTo` (src/zfs/zfs.go:388): run the copy; on a
non-nil copy error, classify it as a read error iff the recorder's `readErr`
is non-nil, and as a write error otherwise; a clean copy returns nil. -/
def writeStreamTo (sink : Nat → Option String) (reads : List ReadRes) :
    Option CopierErr :=
  match copyLoop sink reads 0 with
  | (none, _) => none
  | (some e, readErr) =>
    if readErr.isSome then some (.readError readErr)
    else some (.writeError e)

/-! ## Replication cursor (src/unnamed/part_001) -/

/-- `ZFSPropCreateTxgAndGuidProps` (src/zfs/zfs.go:1256): the `createtxg` and
`guid` properties of a version. -/
structure VersionProps where
  createTXG : Nat
  guid : Nat
deriving DecidableEq

/-- The replication-cursor-relevant state of a single filesystem: its
snapshots (short name, properties) and the `zrepl_replication_cursor`
bookmark's properties if the bookmark exists. -/
structure CursorFSState where
  snaps : List (Comp × VersionProps)
  cursor : Option VersionProps
deriving DecidableEq

/-- Look up a snapshot's `createtxg`/`guid` by short name, i.e. the
`ZFSGetCreateTXGAndGuid(snapPath)` call of src/unnamed/part_001:38; `none`
models its failure (dataset does not exist). -/
def lookupSnap (st : CursorFSState) (name : Comp) : Option VersionProps :=
  (st.snaps.find? (fun x => x.1 == name)).map (fun x => x.2)

/-- Failure oracles for the external calls of `ZFSSetReplicationCursor`:
a non-not-exist failure of the bookmark property probe, and failures of
`ZFSDestroy` and `ZFSBookmark`. -/
structure CursorEnv where
  cursorProbeErr : Option String
  destroyErr : Option String
  bookmarkErr : Option String

/-- `ZFSSetReplicationCursor` (src/unnamed/part_001:27): check non-empty
names, read the snapshot's `createtxg`/`guid`, require the caller's expected
GUID to equal the snapshot's GUID, then (if a cursor bookmark exists) reject
backward motion by `createtxg`, treat an equal GUID as a no-op, and otherwise
destroy the old bookmark and create the new one. Returns the resulting state
and an optional error. -/
def ZFSSetReplicationCursor (fs : DatasetPath) (snapname : Comp)
    (expGuid : Nat) (st : CursorFSState) (env : CursorEnv) :
    CursorFSState × Option String :=
  if fs.length = 0 then (st, some "filesystem name must not be empty")
  else if snapname.length = 0 then (st, some "snapname must not be empty")
  else
    match lookupSnap st snapname with
    | none => (st, some "cannot get snapshot createtxg and guid")
    | some snapProps =>
      if expGuid ≠ snapProps.guid then
        (st, some "expected guid != actual guid")
      else
        match env.cursorProbeErr with
        | some _ => (st, some "cannot get bookmark txg")
        | none =>
          match st.cursor with
          | some bookmarkProps =>
            if snapProps.createTXG < bookmarkProps.createTXG then
              (st, some "cannot can only be advanced, not set back")
            else if bookmarkProps.guid = snapProps.guid then
              (st, none)
            else
              match env.destroyErr with
              | some _ => (st, some "cannot destroy current cursor to move it to new")
              | none =>
                match env.bookmarkErr with
                | some _ => ({ st with cursor := none }, some "cannot create bookmark")
                | none => ({ st with cursor := some snapProps }, none)
          | none =>
            match env.bookmarkErr with
            | some _ => (st, some "cannot create bookmark")
            | none => ({ st with cursor := some snapProps }, none)

/-! ## Resume token and send-argument validation (src/zfs/zfs.go:523-751) -/

/-- The parsed resume token (spec 4.2; the codec source is not under src/,
its field set is used by `validateCorrespondsToResumeToken`,
src/zfs/zfs.go:641). -/
structure ResumeToken where
  ToName : List Char
  HasFromGUID : Bool
  FromGUID : Nat
  HasToGUID : Bool
  ToGUID : Nat
  RawOK : Bool
  CompressOK : Bool
deriving DecidableEq

/-- The failure kinds of `ParseResumeToken` distinguished by
`Sender.Send` (src/unnamed/part_000:119-126). -/
inductive TokenParseErr
  | decodingNotSupported
  | parsingError
  | corrupt
  | other (msg : String)
deriving DecidableEq

/-- Modelled from the spec: the resume-token codec's `ToNameSplit`
(called at src/zfs/zfs.go:654) is not under src/. Per spec 4.2 the token's
`ToName` is the target filesystem plus snapshot; the split yields the
filesystem part before the version separator (`@` or `#`) and fails when no
separator is present. -/
def toNameSplitFS (toName : List Char) : Except String (List Char) :=
  let fsPart := toName.takeWhile (fun c => !(c == '@' || c == '#'))
  if fsPart.length = toName.length then
    .error "resume token toname has no version separator"
  else .ok fsPart

/-- The failure kinds of `ZFSGetGUID` (src/zfs/zfs.go:1134) that
`ZFSSendArgVersion.Validate` distinguishes (src/zfs/zfs.go:543-552):
dataset-does-not-exist versus any other failure. -/
inductive GUIDErr
  | doesNotExist
  | other (msg : String)
deriving DecidableEq

/-- `ZFSSendArgVersion` (src/zfs/zfs.go:525). -/
structure ZFSSendArgVersion where
  RelName : List Char
  GUID : Nat
deriving DecidableEq

/-- `ZFSSendArgs` (src/zfs/zfs.go:578). `From` may be absent; `Encrypted`
models the `*NilBool` pointer, absent meaning unset. -/
structure ZFSSendArgs where
  FS : List Char
  From : Option ZFSSendArgVersion
  To : Option ZFSSendArgVersion
  Encrypted : Option Bool
  ResumeToken : List Char
deriving DecidableEq

/-- Oracles for the external calls made during send-argument validation:
the resume-token parse result, the real GUID of a version of `FS`
(`ZFSGetGUID`), and the encryption probe (`ZFSGetEncryptionEnabled`). -/
structure SendValEnv where
  parse : Except TokenParseErr ResumeToken
  realGUID : List Char → Except GUIDErr Nat
  encEnabled : Except String Bool

/-- `ZFSSendArgVersion.Validate` (src/zfs/zfs.go:531): non-empty `RelName`
starting with `@` or `#`; then look up the real GUID (a does-not-exist
failure falls through with the Go zero value 0) and require it to equal the
declared GUID. -/
def versionValidate (env : SendValEnv) (v : ZFSSendArgVersion) : Option String :=
  if v.RelName.length = 0 then some "RelName must not be empty"
  else if ¬(v.RelName.head? = some '@' ∨ v.RelName.head? = some '#') then
    some "RelName field must start with @ or #"
  else
    match env.realGUID v.RelName with
    | .error .doesNotExist =>
      if 0 ≠ v.GUID then some "GUID field does not match real dataset's GUID"
      else none
    | .error (.other m) => some m
    | .ok realGUID =>
      if realGUID ≠ v.GUID then some "GUID field does not match real dataset's GUID"
      else none

/-- `ZFSSendArgs.validateCorrespondsToResumeToken` (src/zfs/zfs.go:641):
cross-check the parsed token against the request. The `.getD 0` / `.getD
false` defaults are never reached on the paths where they are consulted: the
preceding existence check guarantees `From` is present when `HasFromGUID`
holds, and `ZFSSendArgs.Validate` dereferences `To` and `Encrypted` only
after establishing they are present. -/
def validateCorrespondsToResumeToken (a : ZFSSendArgs) (env : SendValEnv) :
    Option String :=
  if a.ResumeToken = [] then none
  else
    match env.parse with
    | .error _ => some "resume token parse failed"
    | .ok t =>
      match toNameSplitFS t.ToName with
      | .error e => some e
      | .ok tokenFS =>
        if a.FS ≠ tokenFS then
          some "filesystem in resume token field toname does not match expected value"
        else if a.From.isSome ≠ t.HasFromGUID then
          some "resume token fromguid presence mismatch"
        else if t.HasFromGUID = true ∧ t.FromGUID ≠ (a.From.map (fun f => f.GUID)).getD 0 then
          some "resume token fromguid != expected"
        else if t.HasToGUID = false then
          some "resume token does not have toguid"
        else if t.ToGUID ≠ (a.To.map (fun v => v.GUID)).getD 0 then
          some "resume token toguid != expected"
        else if a.Encrypted.getD false = true then
          if ¬(t.RawOK = true ∧ t.CompressOK = true) then
            some "resume token must have rawok and compressok = true"
          else none
        else if t.RawOK = true ∨ t.CompressOK = true then
          some "resume token must not have rawok or compressok set"
        else none

/-- The tail of `ZFSSendArgs.Validate` (src/zfs/zfs.go:614-635): `Encrypted`
must be set, the encryption probe must succeed, an encrypted send of an
unencrypted filesystem is refused, and a non-empty resume token is
cross-checked. -/
def zfsSendArgsValidateTail (a : ZFSSendArgs) (env : SendValEnv) : Option String :=
  match a.Encrypted with
  | none => some "Raw invalid: must explicitly set true or false"
  | some enc =>
    match env.encEnabled with
    | .error e => some ("cannot check whether filesystem is encrypted: " ++ e)
    | .ok fsEncrypted =>
      if enc = true ∧ fsEncrypted = false then
        some "encrypted send requested, but filesystem is not encrypted"
      else if a.ResumeToken ≠ [] then validateCorrespondsToResumeToken a env
      else none

/-- `ZFSSendArgs.Validate` (src/zfs/zfs.go:595): `FS` must parse to a
non-zero dataset path, `To` must be present and valid, `From` (when present)
must be valid, then the tail checks run. -/
def zfsSendArgsValidate (a : ZFSSendArgs) (env : SendValEnv) : Option String :=
  match NewDatasetPath a.FS with
  | .error _ => some "FS must be a valid non-zero dataset path"
  | .ok dp =>
    if dp.length = 0 then some "FS must be a valid non-zero dataset path"
    else
      match a.To with
      | none => some "To must not be nil"
      | some toV =>
        match versionValidate env toV with
        | some e => some ("To invalid: " ++ e)
        | none =>
          match a.From with
          | some fromV =>
            match versionValidate env fromV with
            | some e => some ("From invalid: " ++ e)
            | none => zfsSendArgsValidateTail a env
          | none => zfsSendArgsValidateTail a env

/-- `ZFSSendArgs.buildCommonSendArgs` (src/zfs/zfs.go:318): a non-empty
resume token takes precedence (`-t token`); otherwise `-w` for an encrypted
raw send, then the absolute `to` version and, for an incremental send,
`-i from`. -/
def buildCommonSendArgs (a : ZFSSendArgs) : Except String (List (List Char)) :=
  if a.ResumeToken ≠ [] then .ok [['-', 't'], a.ResumeToken]
  else
    let args := if a.Encrypted.getD false then [['-', 'w']] else []
    if a.FS = [] then .error "filesystem path must have length > 0"
    else
      match a.To with
      | none => .error "To must not be nil"
      | some toV =>
        let toVFull := a.FS ++ toV.RelName
        match a.From with
        | none => .ok (args ++ [toVFull])
        | some f => .ok (args ++ [['-', 'i'], a.FS ++ f.RelName, toVFull])

/-- `ZFSSend` (src/zfs/zfs.go:705) up to process creation: validate the send
arguments (returning an error and hence no stream on failure), then build the
command line. The returned argument list stands for the produced stream
handle; the process plumbing is out of scope. -/
def ZFSSendModel (a : ZFSSendArgs) (env : SendValEnv) :
    Except String (List (List Char)) :=
  match zfsSendArgsValidate a env with
  | some e => .error ("cannot validate send args: " ++ e)
  | none => buildCommonSendArgs a

/-! ## Sender endpoint (src/unnamed/part_000:84-202) -/

/-- `pdu.SendReq` as used by `Sender.Send` (src/unnamed/part_000:84):
filesystem, optional `from`, `to`, optional resume token, dry-run flag. -/
structure SendReq where
  Filesystem : List Char
  From : List Char
  To : List Char
  ResumeToken : List Char
  DryRun : Bool
deriving DecidableEq

/-- `pdu.SendRes` as populated by `Sender.Send`
(src/unnamed/part_000:188-191). -/
structure SendRes where
  ExpectedSize : Int
  UsedResumeToken : Bool
deriving DecidableEq

/-- The distinct refusal causes of `Sender.Send` and `filterCheckFS`
(src/unnamed/part_000:29-45,84-202). -/
inductive SendErr
  | emptyFilesystem
  | emptyTo
  | toMustStartWithAtOrHash
  | fromMustStartWithAtOrHash
  | datasetPathErr (e : String)
  | emptyFilesystemNotAllowed
  | filterFailed (e : String)
  | accessDenied
  | resumeSupportCheckFailed (e : String)
  | tokenCorrupt
  | tokenDecodeFailed (e : String)
  | guidLookupFailed
  | tokenValidationFailed (e : String)
  | semaphoreFailed (e : String)
  | sendDryFailed (e : String)
  | zfsSendFailed (e : String)
deriving DecidableEq

/-- The outcome of `Sender.Send`: a refusal, or a `SendRes` plus (unless
dry-run) a stream handle, modelled as the command argument list. -/
inductive SenderOutcome
  | err (e : SendErr)
  | ok (res : SendRes) (stream : Option (List (List Char)))
deriving DecidableEq

/-- Oracles for the external calls of `Sender.Send`: the dataset filter, the
resume-support probe, the token parse, GUID lookups, semaphore acquisition,
and the dry/real send (both as functions of the resume token actually
used). -/
structure SenderEnv where
  filterRes : Except String Bool
  resumeSupported : Except String Bool
  parse : Except TokenParseErr ResumeToken
  getGUID : List Char → Except GUIDErr Nat
  semAcquire : Option String
  sendDry : List Char → Except String Int
  zfsSend : List Char → Except String (List (List Char))

/-- `Sender.filterCheckFS` (src/unnamed/part_000:29): parse the filesystem,
reject the empty path, and consult the dataset filter. -/
def filterCheckFS (env : SenderEnv) (fs : List Char) : Except SendErr DatasetPath :=
  match NewDatasetPath fs with
  | .error e => .error (.datasetPathErr e)
  | .ok dp =>
    if dp.length = 0 then .error .emptyFilesystemNotAllowed
    else
      match env.filterRes with
      | .error e => .error (.filterFailed e)
      | .ok false => .error .accessDenied
      | .ok true => .ok dp

/-- Modelled from the spec: `ResumeToken.ValidateCorrespondsToSend` (called
at src/unnamed/part_000:146) is not under src/. Per spec 4.3 step 7 it
cross-checks the token's filesystem (from `ToName`), the presence and value
of `fromguid`, and the presence and value of `toguid` against the expected
values derived from the request. -/
def validateCorrespondsToSend (t : ResumeToken) (fs : List Char)
    (expHasFromGUID : Bool) (expFromGUID expToGUID : Nat) : Option String :=
  match toNameSplitFS t.ToName with
  | .error e => some e
  | .ok tokenFS =>
    if tokenFS ≠ fs then some "token filesystem does not match request"
    else if t.HasFromGUID ≠ expHasFromGUID then some "token fromguid presence mismatch"
    else if t.HasFromGUID = true ∧ t.FromGUID ≠ expFromGUID then
      some "token fromguid mismatch"
    else if t.HasToGUID = false then some "token does not have toguid"
    else if t.ToGUID ≠ expToGUID then some "token toguid mismatch"
    else none

/-- The result classification of the `validateResumeToken` closure of
`Sender.Send` (src/unnamed/part_000:107-150): success, the recoverable
`rtNotSupported` wrapper, the `rtValErr` wrapper, or a hard error. -/
inductive RTResult
  | ok
  | notSupported
  | valErr (e : String)
  | hardErr (e : SendErr)
deriving DecidableEq

/-- The `validateResumeToken` closure of `Sender.Send`
(src/unnamed/part_000:107-150): an empty token is fine; an unsupported
resume feature or a decoding-not-supported / parsing-error parse failure is
`notSupported`; a corrupt token is a hard error; any other parse failure is a
hard error; otherwise resolve the expected GUIDs and cross-check the token. -/
def validateResumeTokenFlow (r : SendReq) (env : SenderEnv) : RTResult :=
  if r.ResumeToken = [] then .ok
  else
    match env.resumeSupported with
    | .error e => .hardErr (.resumeSupportCheckFailed e)
    | .ok false => .notSupported
    | .ok true =>
      match env.parse with
      | .error .decodingNotSupported => .notSupported
      | .error .parsingError => .notSupported
      | .error .corrupt => .hardErr .tokenCorrupt
      | .error (.other e) => .hardErr (.tokenDecodeFailed e)
      | .ok token =>
        match env.getGUID r.To with
        | .error _ => .hardErr .guidLookupFailed
        | .ok expToGUID =>
          let fromLookup : Except GUIDErr (Bool × Nat) :=
            if r.From = [] then .ok (false, 0)
            else
              match env.getGUID r.From with
              | .error e => .error e
              | .ok g => .ok (true, g)
          match fromLookup with
          | .error _ => .hardErr .guidLookupFailed
          | .ok (expHasFromGUID, expFromGUID) =>
            match validateCorrespondsToSend token r.Filesystem expHasFromGUID
                expFromGUID expToGUID with
            | some e => .valErr e
            | none => .ok

/-- The tail of `Sender.Send` after resume-token handling
(src/unnamed/part_000:169-201): acquire the send semaphore, run the dry
send, map a -1 size estimate to 0 on the wire, report whether the resume
token was used, and (unless dry-run) start the real send. -/
def senderSendTail (r : SendReq) (env : SenderEnv) (useResumeToken : List Char) :
    SenderOutcome :=
  match env.semAcquire with
  | some e => .err (.semaphoreFailed e)
  | none =>
    match env.sendDry useResumeToken with
    | .error e => .err (.sendDryFailed e)
    | .ok sizeEstimate =>
      let expSize : Int := if sizeEstimate = -1 then 0 else sizeEstimate
      let res : SendRes := ⟨expSize, !useResumeToken.isEmpty⟩
      if r.DryRun then .ok res none
      else
        match env.zfsSend useResumeToken with
        | .error e => .err (.zfsSendFailed e)
        | .ok stream => .ok res (some stream)

/-- `Sender.Send` (src/unnamed/part_000:84): shape checks on the request,
the dataset filter, resume-token validation with its fallback (a
`notSupported` outcome discards the token, a validation failure or hard
error refuses), then the send tail. -/
def senderSend (r : SendReq) (env : SenderEnv) : SenderOutcome :=
  if r.Filesystem = [] then .err .emptyFilesystem
  else if r.To = [] then .err .emptyTo
  else if ¬(r.To.head? = some '@' ∨ r.To.head? = some '#') then
    .err .toMustStartWithAtOrHash
  else if r.From ≠ [] ∧ ¬(r.From.head? = some '@' ∨ r.From.head? = some '#') then
    .err .fromMustStartWithAtOrHash
  else
    match filterCheckFS env r.Filesystem with
    | .error e => .err e
    | .ok _ =>
      match validateResumeTokenFlow r env with
      | .valErr e => .err (.tokenValidationFailed e)
      | .hardErr e => .err e
      | .ok => senderSendTail r env r.ResumeToken
      | .notSupported => senderSendTail r env []

/-! ## Receiver endpoint (src/unnamed/part_000:270-561) -/

/-- `PlaceholderState` as probed by `ZFSGetFilesystemPlaceholderState`. -/
structure PlaceholderState where
  fsExists : Bool
  isPlaceholder : Bool
deriving DecidableEq

/-- The failure causes of the placeholder walk of `Receiver.Receive`
(src/unnamed/part_000:452-505). -/
inductive VisitErr
  | phProbe (e : String)
  | poolNotImported (p : DatasetPath)
  | rootFsDoesNotExist (root : DatasetPath)
  | createFailed (e : String)
deriving DecidableEq

/-- Oracles for the external calls of `Receiver.Receive`: the placeholder
probe (pre-walk state), placeholder creation, clearing the placeholder
property on the target, clearing the resume token, the resumable-receive
probe, semaphore acquisition, and the receive itself. -/
structure RecvEnv where
  ph : DatasetPath → Except String PlaceholderState
  createErr : DatasetPath → Option String
  setPlaceholderErr : Option String
  clearTokenErr : Option String
  resumeRecvSupported : Except String Bool
  semAcquire : Option String
  recvErr : Option String

/-- The chain of ancestor paths visited by the forest walk for the single
path `lp`: its non-empty component-wise prefixes in increasing length.
Modelled from the spec (4.5): the `DatasetPathForest.WalkTopDown` source is
not under src/; the walk visits ancestor paths top-down. -/
def ancestorChain (lp : DatasetPath) : List DatasetPath :=
  (List.range lp.length).map (fun i => lp.take (i + 1))

/-- The visitor body of the walk in `Receiver.Receive`
(src/unnamed/part_000:462-500), iterated over the remaining chain with an
accumulator of created placeholder paths: the target itself is skipped; a
probe failure aborts; an existing filesystem is left as is; a missing path
at or above `root_fs` aborts with "pool not imported" (single component) or
"root_fs does not exist"; otherwise a placeholder filesystem is created. -/
def walkStep (rootNoClient lp : DatasetPath) (env : RecvEnv) :
    List DatasetPath → List DatasetPath → List DatasetPath × Option VisitErr
  | [], created => (created.reverse, none)
  | q :: rest, created =>
    if dpEqual q lp then (created.reverse, none)
    else
      match env.ph q with
      | .error e => (created.reverse, some (.phProbe e))
      | .ok st =>
        if st.fsExists then walkStep rootNoClient lp env rest created
        else if dpHasPre rootNoClient q then
          (created.reverse,
            some (if q.length = 1 then .poolNotImported q
                  else .rootFsDoesNotExist rootNoClient))
        else
          match env.createErr q with
          | some e => (created.reverse, some (.createFailed e))
          | none => walkStep rootNoClient lp env rest (q :: created)

/-- The placeholder hierarchy walk of `Receiver.Receive`
(src/unnamed/part_000:452-505): run the visitor over the ancestor chain of
the target, returning the created placeholder paths and the visit error. -/
def walkPlaceholders (rootNoClient lp : DatasetPath) (env : RecvEnv) :
    List DatasetPath × Option VisitErr :=
  walkStep rootNoClient lp env (ancestorChain lp) []

/-- The placeholder property of `p` after the walk. Modelled from the spec:
`ZFSCreatePlaceholderFilesystem` is not under src/; per spec 4.5 creating a
placeholder sets the reserved property is-placeholder=true, and paths the
walk did not create keep their probed state. -/
def placeholderAfterWalk (env : RecvEnv) (created : List DatasetPath)
    (p : DatasetPath) : Bool :=
  if p ∈ created then true
  else
    match env.ph p with
    | .ok st => st.isPlaceholder
    | .error _ => false

/-- `RecvOptions` (src/zfs/zfs.go:911). -/
structure RecvOptions where
  RollbackAndForceRecv : Bool
  SavePartialRecvState : Bool
deriving DecidableEq

/-- The externally visible actions `Receiver.Receive` performs after the
walk, in order: clearing the placeholder property, clearing the resume
token, and invoking `ZFSRecv` with the chosen options. -/
inductive RAction
  | setPlaceholder (p : DatasetPath) (b : Bool)
  | clearResumeToken (p : DatasetPath)
  | recv (p : DatasetPath) (opts : RecvOptions)
deriving DecidableEq

/-- The failure causes of `Receiver.Receive` (src/unnamed/part_000:436-552). -/
inductive RecvError
  | mapFailed (e : String)
  | visit (e : VisitErr)
  | clearPlaceholderFailed (e : String)
  | clearResumeTokenFailed (e : String)
  | resumeSupportProbeFailed (e : String)
  | semaphoreFailed (e : String)
  | zfsRecvFailed (e : String)
deriving DecidableEq

/-- `pdu.ReceiveReq` as used by `Receiver.Receive`. -/
structure ReceiveReq where
  Filesystem : List Char
  ClearResumeToken : Bool
deriving DecidableEq

/-- The outcome of `Receiver.Receive`: the placeholder paths created by the
walk, the post-walk actions attempted in order, and the error if any. -/
structure ReceiveResult where
  created : List DatasetPath
  post : List RAction
  result : Option RecvError
deriving DecidableEq

/-- The tail of `Receiver.Receive` from the resumable-receive probe on
(src/unnamed/part_000:527-551): probe resumable receive (setting
`SavePartialRecvState`), acquire the receive semaphore, and run `ZFSRecv`. -/
def receiveAfterToken (lp : DatasetPath) (env : RecvEnv)
    (created : List DatasetPath) (post : List RAction) (rollback : Bool) :
    ReceiveResult :=
  match env.resumeRecvSupported with
  | .error e => ⟨created, post, some (.resumeSupportProbeFailed e)⟩
  | .ok savePartial =>
    match env.semAcquire with
    | some e => ⟨created, post, some (.semaphoreFailed e)⟩
    | none =>
      let opts : RecvOptions := ⟨rollback, savePartial⟩
      match env.recvErr with
      | some e => ⟨created, post ++ [RAction.recv lp opts], some (.zfsRecvFailed e)⟩
      | none => ⟨created, post ++ [RAction.recv lp opts], none⟩

/-- The resume-token-clearing step of `Receiver.Receive`
(src/unnamed/part_000:521-525): when requested and the target exists, clear
the resume token, aborting on failure. -/
def receiveAfterClear (lp : DatasetPath) (req : ReceiveReq) (env : RecvEnv)
    (created : List DatasetPath) (post : List RAction) (rollback : Bool)
    (phExists : Bool) : ReceiveResult :=
  if req.ClearResumeToken && phExists then
    match env.clearTokenErr with
    | some e =>
      ⟨created, post ++ [RAction.clearResumeToken lp], some (.clearResumeTokenFailed e)⟩
    | none =>
      receiveAfterToken lp env created (post ++ [RAction.clearResumeToken lp]) rollback
  else receiveAfterToken lp env created post rollback

/-- `Receiver.Receive` (src/unnamed/part_000:436): map the client-relative
path below the client root, run the placeholder walk, then — when the target
exists and is a placeholder — enable rollback-and-force and clear the
placeholder property (aborting before the stream when clearing fails),
optionally clear the resume token, and hand over to the receive tail. A
failed placeholder probe of the target leaves the Go zero value
(exists=false, placeholder=false), as in the source. -/
def receiverReceive (rootNoClient clientRoot : DatasetPath) (req : ReceiveReq)
    (env : RecvEnv) : ReceiveResult :=
  match subrootMapToLocal clientRoot req.Filesystem with
  | .error e => ⟨[], [], some (.mapFailed e)⟩
  | .ok lp =>
    match walkPlaceholders rootNoClient lp env with
    | (created, some e) => ⟨created, [], some (.visit e)⟩
    | (created, none) =>
      let phT : PlaceholderState :=
        match env.ph lp with
        | .ok st => st
        | .error _ => ⟨false, false⟩
      let clearPlaceholder : Bool := phT.fsExists && phT.isPlaceholder
      if clearPlaceholder then
        match env.setPlaceholderErr with
        | some e =>
          ⟨created, [RAction.setPlaceholder lp false], some (.clearPlaceholderFailed e)⟩
        | none =>
          receiveAfterClear lp req env created [RAction.setPlaceholder lp false]
            true phT.fsExists
      else receiveAfterClear lp req env created [] false phT.fsExists

/-! ## Receiver listing (src/unnamed/part_000:348-389) -/

/-- An entry of the receiver's `ListFilesystems` response
(src/unnamed/part_000:377-381): the root-trimmed path, the placeholder
state, and the resume token. -/
structure FSEntry where
  path : DatasetPath
  isPlaceholder : Bool
  resumeToken : List Char
deriving DecidableEq

/-- Oracles for `Receiver.ListFilesystems`: the set of all local
filesystems (consulted by `ZFSListMapping`), the placeholder probe, and the
resume-token probe. -/
structure ListEnv where
  allFS : List DatasetPath
  ph : DatasetPath → Except String PlaceholderState
  resumeTok : DatasetPath → Except String (List Char)

/-- The per-filesystem loop of `Receiver.ListFilesystems`
(src/unnamed/part_000:356-383): probe the placeholder state (a probe failure
or a filesystem reported absent aborts the whole listing), fetch the resume
token, trim the root, and emit the entry. -/
def listLoop (root : DatasetPath) (env : ListEnv) :
    List DatasetPath → Except String (List FSEntry)
  | [] => .ok []
  | a :: rest =>
    match env.ph a with
    | .error e => .error ("cannot get placeholder state: " ++ e)
    | .ok st =>
      if st.fsExists = false then
        .error "inconsistent placeholder state: filesystem must exist in this context"
      else
        match env.resumeTok a with
        | .error e => .error e
        | .ok tok =>
          match listLoop root env rest with
          | .error e => .error e
          | .ok es => .ok (⟨dpTrimPre a root, st.isPlaceholder, tok⟩ :: es)

/-- `Receiver.ListFilesystems` (src/unnamed/part_000:348): list the local
filesystems passing the `subroot` filter for the client root, then run the
per-filesystem loop. `ZFSListMapping` is not under src/; modelled from the
spec (4.1): ListMapping(filter) returns the paths passing the filter. -/
def receiverListFilesystems (root : DatasetPath) (env : ListEnv) :
    Except String (List FSEntry) :=
  listLoop root env (env.allFS.filter (fun p => subrootFilter root p))

/-- A concrete receive environment for exercising the placeholder walk:
root and root/c exist, everything else is absent, creation succeeds. -/
def walkDemoEnv : RecvEnv where
  ph p :=
    if p = [['r']] then .ok ⟨true, false⟩
    else if p = [['r'], ['c']] then .ok ⟨true, false⟩
    else .ok ⟨false, false⟩
  createErr _ := none
  setPlaceholderErr := none
  clearTokenErr := none
  resumeRecvSupported := .ok false
  semAcquire := none
  recvErr := none

/-- A concrete receive environment in which no filesystem exists at all
(models an unimported pool). -/
def walkDemoEnvAbsent : RecvEnv where
  ph _ := .ok ⟨false, false⟩
  createErr _ := none
  setPlaceholderErr := none
  clearTokenErr := none
  resumeRecvSupported := .ok false
  semAcquire := none
  recvErr := none

/-- A concrete receive environment where the target exists as a placeholder
and its ancestors exist as plain filesystems. -/
def recvDemoEnv : RecvEnv where
  ph p :=
    if p = [['r'], ['c'], ['a']] then .ok ⟨true, true⟩
    else .ok ⟨true, false⟩
  createErr _ := none
  setPlaceholderErr := none
  clearTokenErr := none
  resumeRecvSupported := .ok true
  semAcquire := none
  recvErr := none

/-- The same environment with a failing placeholder-property clear. -/
def recvDemoEnvClearFails : RecvEnv where
  ph p :=
    if p = [['r'], ['c'], ['a']] then .ok ⟨true, true⟩
    else .ok ⟨true, false⟩
  createErr _ := none
  setPlaceholderErr := some "permission denied"
  clearTokenErr := none
  resumeRecvSupported := .ok true
  semAcquire := none
  recvErr := none

/-- A concrete listing environment: the root itself, one strict descendant,
and one unrelated filesystem. -/
def listDemoEnv : ListEnv where
  allFS := [[['r']], [['r'], ['a']], [['x']]]
  ph _ := .ok ⟨true, false⟩
  resumeTok _ := .ok []

/-! ## Lemmas about the dataset-path parser -/

theorem splitSlash_ne_nil (s : List Char) : splitSlash s ≠ [] := by
  cases s with
  | nil => simp [splitSlash]
  | cons c rest =>
    by_cases h : c = '/'
    · simp [splitSlash, h]
    · simp only [splitSlash, if_neg h]
      cases splitSlash rest <;> simp

theorem dpToString_splitSlash (s : List Char) :
    dpToString (splitSlash s) = s := by
  induction s with
  | nil => rfl
  | cons c rest ih =>
    by_cases h : c = '/'
    · subst h
      simp only [splitSlash, if_pos rfl]
      rcases hr : splitSlash rest with _ | ⟨x, xs⟩
      · exact absurd hr (splitSlash_ne_nil rest)
      · rw [hr] at ih
        simp [dpToString, ih]
    · simp only [splitSlash, if_neg h]
      rcases hr : splitSlash rest with _ | ⟨comp, comps⟩
      · exact absurd hr (splitSlash_ne_nil rest)
      · rw [hr] at ih
        cases comps with
        | nil =>
          simp only [dpToString] at ih ⊢
          simp [ih]
        | cons y ys =>
          simp only [dpToString] at ih ⊢
          rw [List.cons_append, ih]

theorem splitSlash_not_singleton_nil (r : Char) (rs : List Char) :
    splitSlash (r :: rs) ≠ [[]] := by
  by_cases hr : r = '/'
  · subst hr
    simp only [splitSlash, if_pos rfl]
    intro h
    rcases hs : splitSlash rs with _ | ⟨x, xs⟩
    · exact absurd hs (splitSlash_ne_nil rs)
    · rw [hs] at h
      simp at h
  · simp only [splitSlash, if_neg hr]
    rcases hs : splitSlash rs with _ | ⟨x, xs⟩
    · exact absurd hs (splitSlash_ne_nil rs)
    · intro h
      simp at h

theorem splitSlash_cons_slash (rest : List Char) :
    splitSlash ('/' :: rest) = [] :: splitSlash rest := by
  simp [splitSlash]

theorem splitSlash_cons_other (c : Char) (rest : List Char) (h : ¬c = '/')
    (comp : List Char) (comps : List (List Char))
    (hr : splitSlash rest = comp :: comps) :
    splitSlash (c :: rest) = (c :: comp) :: comps := by
  simp only [splitSlash, if_neg h, hr]

theorem splitSlash_getLast (s : List Char) (hs : s ≠ []) :
    ((splitSlash s).getLast? = some [] ↔ s.getLast? = some '/') := by
  induction s with
  | nil => exact absurd rfl hs
  | cons c rest ih =>
    cases rest with
    | nil =>
      by_cases h : c = '/'
      · subst h; decide
      · rw [splitSlash_cons_other c [] h [] [] rfl]
        simp [h]
    | cons r rs =>
      have ih' := ih (by simp)
      have hlast : (c :: r :: rs).getLast? = (r :: rs).getLast? := by
        rw [List.getLast?_cons_cons]
      rw [hlast]
      rcases hr : splitSlash (r :: rs) with _ | ⟨comp, comps⟩
      · exact absurd hr (splitSlash_ne_nil _)
      · rw [hr] at ih'
        by_cases h : c = '/'
        · subst h
          rw [splitSlash_cons_slash, hr, List.getLast?_cons_cons]
          exact ih'
        · rw [splitSlash_cons_other c (r :: rs) h comp comps hr]
          cases comps with
          | nil =>
            have hcomp : comp ≠ [] := by
              intro hc; subst hc
              exact splitSlash_not_singleton_nil r rs hr
            constructor
            · intro hcc
              simp at hcc
            · intro hcc
              have h2 := ih'.mpr hcc
              simp at h2
              exact absurd h2 hcomp
          | cons y ys =>
            rw [List.getLast?_cons_cons] at ih' ⊢
            exact ih'

/-- C8: for every string without forbidden characters and not ending in a
slash, `NewDatasetPath` succeeds and `ToString` of the result is the
original string. -/
theorem C8_dataset_path_roundtrip (s : List Char)
    (hforbidden : containsForbidden s = false)
    (hslash : s.getLast? ≠ some '/') :
    ∃ p, NewDatasetPath s = .ok p ∧ dpToString p = s := by
  by_cases hs : s = []
  · subst hs
    exact ⟨[], rfl, rfl⟩
  · refine ⟨splitSlash s, ?_, dpToString_splitSlash s⟩
    have h1 : ¬((splitSlash s).getLast? = some ([] : List Char)) := by
      rw [splitSlash_getLast s hs]; exact hslash
    simp [NewDatasetPath, hs, hforbidden, h1]

/-- Witness for C8 at the concrete input "tank/a". -/
theorem C8_dataset_path_roundtrip_witness :
    containsForbidden ['t', 'a', 'n', 'k', '/', 'a'] = false ∧
    (['t', 'a', 'n', 'k', '/', 'a'] : List Char).getLast? ≠ some '/' ∧
    ∃ p, NewDatasetPath ['t', 'a', 'n', 'k', '/', 'a'] = .ok p ∧
      dpToString p = ['t', 'a', 'n', 'k', '/', 'a'] :=
  ⟨by decide, by decide, C8_dataset_path_roundtrip _ (by decide) (by decide)⟩

/-- Counterexample to C9 as stated: the input "a//b" contains an empty
component, yet `NewDatasetPath` accepts it (the code only rejects an empty
final component), producing a path whose middle component is empty. -/
theorem C9_counterexample :
    NewDatasetPath ['a', '/', '/', 'b'] = .ok [['a'], [], ['b']] ∧
    ([] : Comp) ∈ [(['a'] : Comp), [], ['b']] := by
  exact ⟨rfl, by decide⟩

/-- C9 (amended): `NewDatasetPath` rejects every input containing a
forbidden character and every input ending in a slash; a successfully parsed
non-empty input always has a non-empty final component. Interior empty
components are not rejected. -/
theorem C9_parse_rejections (s : List Char) (p : DatasetPath) :
    (containsForbidden s = true → ∃ e, NewDatasetPath s = .error e) ∧
    (s.getLast? = some '/' → ∃ e, NewDatasetPath s = .error e) ∧
    (NewDatasetPath s = .ok p → s ≠ [] → p.getLast? ≠ some []) := by
  refine ⟨?_, ?_, ?_⟩
  · intro h
    have hs : s ≠ [] := by
      intro he; subst he; simp [containsForbidden] at h
    exact ⟨"contains forbidden characters", by simp [NewDatasetPath, hs, h]⟩
  · intro h
    have hs : s ≠ [] := by intro he; subst he; simp at h
    by_cases hf : containsForbidden s = true
    · exact ⟨"contains forbidden characters", by simp [NewDatasetPath, hs, hf]⟩
    · have h1 : (splitSlash s).getLast? = some [] := by
        rw [splitSlash_getLast s hs]; exact h
      simp only [Bool.not_eq_true] at hf
      exact ⟨"must not end with a '/'", by simp [NewDatasetPath, hs, hf, h1]⟩
  · intro hok hs
    unfold NewDatasetPath at hok
    rw [if_neg hs] at hok
    by_cases hf : containsForbidden s = true
    · simp [hf] at hok
    · simp only [Bool.not_eq_true] at hf
      rw [hf] at hok
      simp only [Bool.false_eq_true, if_false] at hok
      split at hok
      · exact absurd hok (by simp)
      · next hne =>
        have : p = splitSlash s := by
          injection hok with h; exact h.symm
        subst this
        exact hne

/-- Witness for the amended C9 at concrete inputs: "@" is rejected, "a/" is
rejected, and the parse of "a" has a non-empty final component. -/
theorem C9_parse_rejections_witness :
    (∃ e, NewDatasetPath ['@'] = .error e) ∧
    (∃ e, NewDatasetPath ['a', '/'] = .error e) ∧
    (NewDatasetPath ['a'] = .ok [['a']] → ['a'] ≠ ([] : List Char) →
      ([['a']] : DatasetPath).getLast? ≠ some []) :=
  ⟨(C9_parse_rejections ['@'] []).1 (by decide),
   (C9_parse_rejections ['a', '/'] []).2.1 (by decide),
   (C9_parse_rejections ['a'] [['a']]).2.2⟩

/-! ## Lemmas about the path operations -/

theorem dpHasPre_iff (p q : DatasetPath) :
    dpHasPre p q = true ↔ ∃ t, q ++ t = p := by
  induction q generalizing p with
  | nil => simp [dpHasPre]
  | cons b q ih =>
    cases p with
    | nil => simp [dpHasPre]
    | cons a p =>
      simp only [dpHasPre, Bool.and_eq_true, beq_iff_eq, List.cons_append,
        List.cons.injEq]
      rw [ih]
      constructor
      · rintro ⟨hab, t, ht⟩
        exact ⟨t, hab.symm, ht⟩
      · rintro ⟨t, hba, ht⟩
        exact ⟨hba.symm, t, ht⟩

theorem dpEqual_iff (p q : DatasetPath) : dpEqual p q = true ↔ p = q := by
  simp [dpEqual]

theorem dpHasPre_refl (p : DatasetPath) : dpHasPre p p = true :=
  (dpHasPre_iff p p).mpr ⟨[], List.append_nil p⟩

theorem dpHasPre_take (p : DatasetPath) (k : Nat) :
    dpHasPre p (p.take k) = true :=
  (dpHasPre_iff p (p.take k)).mpr ⟨p.drop k, List.take_append_drop k p⟩

theorem dpHasPre_length_le (p q : DatasetPath) (h : dpHasPre p q = true) :
    q.length ≤ p.length := by
  obtain ⟨t, ht⟩ := (dpHasPre_iff p q).mp h
  subst ht
  simp

/-- If `root` and `q` are both component-wise prefixes of `lp` and `q` is not
a prefix of `root`, then `q` extends `root` strictly. -/
theorem strictly_below_of_not_above (lp root q : DatasetPath)
    (hroot : dpHasPre lp root = true)
    (hq : dpHasPre lp q = true)
    (hnot : ¬dpHasPre root q = true) :
    ∃ t, t ≠ [] ∧ q = root ++ t := by
  obtain ⟨u, hu⟩ := (dpHasPre_iff lp root).mp hroot
  obtain ⟨w, hw⟩ := (dpHasPre_iff lp q).mp hq
  have h1 : lp.take q.length = q := by
    rw [← hw]; exact List.take_left q w
  have h2 : lp.take root.length = root := by
    rw [← hu]; exact List.take_left root u
  by_cases hlen : q.length ≤ root.length
  · exfalso
    apply hnot
    rw [dpHasPre_iff]
    refine ⟨root.drop q.length, ?_⟩
    have h3 : root.take q.length = q := by
      rw [← h2, List.take_take, Nat.min_eq_left hlen, h1]
    nth_rewrite 1 [← h3]
    exact List.take_append_drop _ root
  · push_neg at hlen
    have h3 : q.take root.length = root := by
      rw [← h1, List.take_take, Nat.min_eq_left (le_of_lt hlen), h2]
    refine ⟨q.drop root.length, ?_, ?_⟩
    · intro hnil
      have hlen2 := congrArg List.length hnil
      simp only [List.length_drop, List.length_nil] at hlen2
      omega
    · nth_rewrite 1 [← h3]
      exact (List.take_append_drop _ q).symm

/-! ## The stream-copier claim -/

theorem copyLoop_read_recorded (sink : Nat → Option String)
    (reads : List ReadRes) :
    ∀ wi x re, copyLoop sink reads wi = (some (.fromRead x), re) →
      re = some x := by
  induction reads with
  | nil =>
    intro wi x re h
    simp [copyLoop] at h
  | cons r rs ih =>
    intro wi x re h
    simp only [copyLoop] at h
    split at h
    · split at h
      · simp at h
      · split at h
        · exact ih _ _ _ h
        · simp at h
        · simp only [Prod.mk.injEq, Option.some.injEq] at h
          obtain ⟨h1, h2⟩ := h
          cases h1
          exact h2.symm ▸ rfl
    · split at h
      · exact ih _ _ _ h
      · simp at h
      · simp only [Prod.mk.injEq, Option.some.injEq] at h
        obtain ⟨h1, h2⟩ := h
        cases h1
        exact h2.symm ▸ rfl

/-- C7: for every copy run by `writeStreamTo`, a clean copy yields no
copier error; an erroring copy yields a copier error that is of read-error
kind exactly when the last recorded read error is non-nil; and a
write-error-kind result really stems from a failing sink write. -/
theorem C7_stream_copier (sink : Nat → Option String) (reads : List ReadRes) :
    (writeStreamTo sink reads = none ↔ (copyLoop sink reads 0).1 = none) ∧
    (∀ e, writeStreamTo sink reads = some e →
       (isReadErrorKind e = true ↔ (copyLoop sink reads 0).2 ≠ none)) ∧
    (∀ e, writeStreamTo sink reads = some e → isReadErrorKind e = false →
       ∃ m, (copyLoop sink reads 0).1 = some (.fromWrite m)) := by
  rcases hc : copyLoop sink reads 0 with ⟨ge, re⟩
  refine ⟨?_, ?_, ?_⟩
  · unfold writeStreamTo
    rw [hc]
    cases ge with
    | none => simp
    | some g => cases re <;> simp
  · intro e he
    unfold writeStreamTo at he
    rw [hc] at he
    cases ge with
    | none => simp at he
    | some g =>
      cases re with
      | none =>
        simp only [Option.isSome_none, Bool.false_eq_true, if_false,
          Option.some.injEq] at he
        subst he
        simp [isReadErrorKind]
      | some r =>
        simp only [Option.isSome_some, if_true, Option.some.injEq] at he
        subst he
        simp [isReadErrorKind]
  · intro e he hkind
    unfold writeStreamTo at he
    rw [hc] at he
    cases ge with
    | none => simp at he
    | some g =>
      cases re with
      | none =>
        cases g with
        | fromRead x =>
          have := copyLoop_read_recorded sink reads 0 x none hc
          simp at this
        | fromWrite m => exact ⟨m, rfl⟩
      | some r =>
        simp only [Option.isSome_some, if_true, Option.some.injEq] at he
        subst he
        simp [isReadErrorKind] at hkind

/-- Witness for C7 at a concrete failing sink: the copy fails on the first
write, the recorded read error is nil, and the copier error is of
write-error kind backed by the sink failure. -/
theorem C7_stream_copier_witness :
    writeStreamTo (fun _ => some "sink failed") [⟨5, none⟩] =
      some (.writeError (.fromWrite "sink failed")) ∧
    (isReadErrorKind (.writeError (.fromWrite "sink failed")) = true ↔
      (copyLoop (fun _ => some "sink failed") [⟨5, none⟩] 0).2 ≠ none) :=
  ⟨by decide,
   (C7_stream_copier (fun _ => some "sink failed") [⟨5, none⟩]).2.1 _ (by decide)⟩

/-! ## The replication-cursor claims -/

/-- C2 (zfs-function level): when the snapshot's actual GUID differs from
the caller-supplied expected GUID, `ZFSSetReplicationCursor` fails and
leaves the state — in particular the cursor bookmark — unchanged. The
sender endpoint call path is settled separately: at
src/unnamed/part_000:244 the endpoint invokes the cursor set without
passing any caller-supplied expected GUID at all. -/
theorem C2_cursor_guid_check (fs : DatasetPath) (snapname : Comp)
    (expGuid : Nat) (st : CursorFSState) (env : CursorEnv) (sp : VersionProps)
    (hsnap : lookupSnap st snapname = some sp)
    (hguid : expGuid ≠ sp.guid) :
    ∃ e, ZFSSetReplicationCursor fs snapname expGuid st env = (st, some e) := by
  unfold ZFSSetReplicationCursor
  split
  · exact ⟨_, rfl⟩
  · split
    · exact ⟨_, rfl⟩
    · rw [hsnap]
      simp only [if_pos hguid]
      exact ⟨_, rfl⟩

/-- Witness for C2 at a concrete state: snapshot `s1` has GUID 42, the
caller expects 7, the call fails and the cursor is untouched. -/
theorem C2_cursor_guid_check_witness :
    ∃ e, ZFSSetReplicationCursor [['p']] ['s', '1'] 7
        ⟨[(['s', '1'], ⟨10, 42⟩)], some ⟨5, 40⟩⟩ ⟨none, none, none⟩ =
      (⟨[(['s', '1'], ⟨10, 42⟩)], some ⟨5, 40⟩⟩, some e) :=
  C2_cursor_guid_check [['p']] ['s', '1'] 7
    ⟨[(['s', '1'], ⟨10, 42⟩)], some ⟨5, 40⟩⟩ ⟨none, none, none⟩ ⟨10, 42⟩
    (by decide) (by decide)

/-- C5: with an existing cursor bookmark, moving the cursor to a snapshot
with a lower creation transaction fails and leaves the state unchanged;
moving it to a snapshot whose GUID already equals the cursor's GUID (which,
by the spec's data model, implies an equal-or-higher creation transaction,
assumed here as a hypothesis) succeeds without mutating anything. -/
theorem C5_cursor_monotone (fs : DatasetPath) (snapname : Comp)
    (expGuid : Nat) (st : CursorFSState) (env : CursorEnv)
    (sp bm : VersionProps)
    (hcur : st.cursor = some bm)
    (hsnap : lookupSnap st snapname = some sp) :
    (sp.createTXG < bm.createTXG →
       ∃ e, ZFSSetReplicationCursor fs snapname expGuid st env = (st, some e)) ∧
    (bm.guid = sp.guid → expGuid = sp.guid → bm.createTXG ≤ sp.createTXG →
       fs ≠ [] → snapname ≠ [] → env.cursorProbeErr = none →
       ZFSSetReplicationCursor fs snapname expGuid st env = (st, none)) := by
  constructor
  · intro hlt
    unfold ZFSSetReplicationCursor
    split
    · exact ⟨_, rfl⟩
    · split
      · exact ⟨_, rfl⟩
      · rw [hsnap]
        by_cases hg : expGuid ≠ sp.guid
        · simp only [if_pos hg]
          exact ⟨_, rfl⟩
        · simp only [if_neg hg]
          cases hpe : env.cursorProbeErr with
          | some e => exact ⟨_, rfl⟩
          | none =>
            rw [hcur]
            simp only [if_pos hlt]
            exact ⟨_, rfl⟩
  · intro hg hexp hle hfs hsnapname hpe
    have h1 : ¬fs.length = 0 := by simpa [List.length_eq_zero] using hfs
    have h2 : ¬snapname.length = 0 := by
      simpa [List.length_eq_zero] using hsnapname
    have h3 : ¬expGuid ≠ sp.guid := by simp [hexp]
    have h4 : ¬sp.createTXG < bm.createTXG := by omega
    simp only [ZFSSetReplicationCursor, if_neg h1, if_neg h2, hsnap,
      if_neg h3, hpe, hcur, if_neg h4, if_pos hg]

/-- Witness for C5 at a concrete state: the cursor sits at createtxg 10;
moving to the older snapshot `s0` (createtxg 5) fails without mutation, and
re-setting it to the snapshot it already identifies (same GUID 40) is a
successful no-op. -/
theorem C5_cursor_monotone_witness :
    (∃ e, ZFSSetReplicationCursor [['p']] ['s', '0'] 30
        ⟨[(['s', '0'], ⟨5, 30⟩)], some ⟨10, 40⟩⟩ ⟨none, none, none⟩ =
      (⟨[(['s', '0'], ⟨5, 30⟩)], some ⟨10, 40⟩⟩, some e)) ∧
    ZFSSetReplicationCursor [['p']] ['s', '1'] 40
        ⟨[(['s', '1'], ⟨10, 40⟩)], some ⟨10, 40⟩⟩ ⟨none, none, none⟩ =
      (⟨[(['s', '1'], ⟨10, 40⟩)], some ⟨10, 40⟩⟩, none) :=
  ⟨(C5_cursor_monotone [['p']] ['s', '0'] 30
      ⟨[(['s', '0'], ⟨5, 30⟩)], some ⟨10, 40⟩⟩ ⟨none, none, none⟩
      ⟨5, 30⟩ ⟨10, 40⟩ (by decide) (by decide)).1 (by decide),
   (C5_cursor_monotone [['p']] ['s', '1'] 40
      ⟨[(['s', '1'], ⟨10, 40⟩)], some ⟨10, 40⟩⟩ ⟨none, none, none⟩
      ⟨10, 40⟩ ⟨10, 40⟩ (by decide) (by decide)).2 (by decide) (by decide)
      (by decide) (by decide) (by decide) (by decide)⟩

/-! ## The send-argument validation claim -/

theorem validateCorresponds_none (a : ZFSSendArgs) (env : SendValEnv)
    (htok : a.ResumeToken ≠ [])
    (h : validateCorrespondsToResumeToken a env = none) :
    ∃ t tokenFS, env.parse = .ok t ∧ toNameSplitFS t.ToName = .ok tokenFS ∧
      a.FS = tokenFS ∧ t.HasFromGUID = a.From.isSome ∧
      (∀ f, a.From = some f → t.FromGUID = f.GUID) ∧
      t.HasToGUID = true ∧
      (∀ v, a.To = some v → t.ToGUID = v.GUID) ∧
      (a.Encrypted.getD false = true → t.RawOK = true ∧ t.CompressOK = true) ∧
      (a.Encrypted.getD false = false → t.RawOK = false ∧ t.CompressOK = false) := by
  unfold validateCorrespondsToResumeToken at h
  rw [if_neg htok] at h
  rcases hp : env.parse with e | t
  · rw [hp] at h; simp at h
  · rw [hp] at h
    simp only at h
    rcases hsplit : toNameSplitFS t.ToName with e | tokenFS
    · rw [hsplit] at h; simp at h
    · rw [hsplit] at h
      simp only at h
      by_cases hfs : a.FS ≠ tokenFS
      · rw [if_pos hfs] at h; simp at h
      · rw [if_neg hfs] at h
        push_neg at hfs
        by_cases hfrom1 : a.From.isSome ≠ t.HasFromGUID
        · rw [if_pos hfrom1] at h; simp at h
        · rw [if_neg hfrom1] at h
          push_neg at hfrom1
          by_cases hfrom2 : t.HasFromGUID = true ∧
              t.FromGUID ≠ (Option.map (fun f => f.GUID) a.From).getD 0
          · rw [if_pos hfrom2] at h; simp at h
          · rw [if_neg hfrom2] at h
            by_cases hto1 : t.HasToGUID = false
            · rw [if_pos hto1] at h; simp at h
            · rw [if_neg hto1] at h
              simp only [Bool.not_eq_false] at hto1
              by_cases hto2 : t.ToGUID ≠ (Option.map (fun v => v.GUID) a.To).getD 0
              · rw [if_pos hto2] at h; simp at h
              · rw [if_neg hto2] at h
                push_neg at hto2
                refine ⟨t, tokenFS, rfl, hsplit, hfs, hfrom1.symm, ?_, hto1,
                  ?_, ?_, ?_⟩
                · intro f hf
                  by_contra hne
                  apply hfrom2
                  constructor
                  · rw [← hfrom1, hf]; rfl
                  · rw [hf]; simpa using hne
                · intro v hv
                  rw [hto2, hv]; rfl
                · intro henc
                  rw [if_pos henc] at h
                  by_cases hraw : ¬(t.RawOK = true ∧ t.CompressOK = true)
                  · rw [if_pos hraw] at h; simp at h
                  · rw [if_neg hraw] at h
                    push_neg at hraw
                    exact hraw
                · intro henc
                  rw [henc, if_neg Bool.false_ne_true] at h
                  by_cases hor : t.RawOK = true ∨ t.CompressOK = true
                  · rw [if_pos hor] at h; simp at h
                  · rw [if_neg hor] at h
                    push_neg at hor
                    simp only [Bool.not_eq_true] at hor
                    exact hor

theorem zfsSendArgsValidate_none (a : ZFSSendArgs) (env : SendValEnv)
    (h : zfsSendArgsValidate a env = none) :
    (∃ toV, a.To = some toV) ∧ (∃ enc, a.Encrypted = some enc) ∧
    (a.ResumeToken ≠ [] → validateCorrespondsToResumeToken a env = none) := by
  have hTail : zfsSendArgsValidateTail a env = none →
      (∃ enc, a.Encrypted = some enc) ∧
      (a.ResumeToken ≠ [] → validateCorrespondsToResumeToken a env = none) := by
    intro ht
    unfold zfsSendArgsValidateTail at ht
    rcases hEnc : a.Encrypted with _ | enc
    · rw [hEnc] at ht; simp at ht
    · rw [hEnc] at ht
      simp only at ht
      refine ⟨⟨enc, rfl⟩, ?_⟩
      intro htok
      rcases hee : env.encEnabled with e | fsEnc
      · rw [hee] at ht; simp at ht
      · rw [hee] at ht
        simp only at ht
        by_cases hcond : enc = true ∧ fsEnc = false
        · rw [if_pos hcond] at ht; simp at ht
        · rw [if_neg hcond, if_pos htok] at ht
          exact ht
  unfold zfsSendArgsValidate at h
  rcases hdp : NewDatasetPath a.FS with e | dp
  · rw [hdp] at h; simp at h
  · rw [hdp] at h
    simp only at h
    split at h
    · simp at h
    · rcases hTo : a.To with _ | toV
      · rw [hTo] at h; simp at h
      · rw [hTo] at h
        simp only at h
        split at h
        · simp at h
        · rcases hFrom : a.From with _ | fromV
          · rw [hFrom] at h
            simp only at h
            obtain ⟨he, hv⟩ := hTail h
            exact ⟨⟨toV, rfl⟩, he, hv⟩
          · rw [hFrom] at h
            simp only at h
            split at h
            · simp at h
            · obtain ⟨he, hv⟩ := hTail h
              exact ⟨⟨toV, rfl⟩, he, hv⟩

/-- C1: whenever the sender accepts a send with a non-empty resume token
(`ZFSSendModel` returns a stream), the parsed token's filesystem equals the
request filesystem, `HasFromGUID` mirrors the presence of `From` and the
GUIDs agree when both are present, `HasToGUID` holds with `ToGUID` equal to
the request's `To` GUID, and the raw/compress flags are exactly demanded by
(resp. forbidden without) the encrypted-raw request flag; and whenever
validation fails no stream is produced. The refusal of every mismatch is the
contrapositive of the first conjunct, `ZFSSendModel` being total. -/
theorem C1_send_resume_token_validation (a : ZFSSendArgs) (env : SendValEnv)
    (htok : a.ResumeToken ≠ []) :
    (∀ sargs, ZFSSendModel a env = .ok sargs →
       ∃ t tokenFS, env.parse = .ok t ∧ toNameSplitFS t.ToName = .ok tokenFS ∧
         a.FS = tokenFS ∧ t.HasFromGUID = a.From.isSome ∧
         (∀ f, a.From = some f → t.FromGUID = f.GUID) ∧
         t.HasToGUID = true ∧
         (∀ v, a.To = some v → t.ToGUID = v.GUID) ∧
         (∃ b, a.Encrypted = some b ∧
           (b = true → t.RawOK = true ∧ t.CompressOK = true) ∧
           (b = false → t.RawOK = false ∧ t.CompressOK = false))) ∧
    (zfsSendArgsValidate a env ≠ none →
       ∀ sargs, ZFSSendModel a env ≠ .ok sargs) := by
  constructor
  · intro sargs hok
    unfold ZFSSendModel at hok
    rcases hval : zfsSendArgsValidate a env with _ | e
    · obtain ⟨⟨toV, hTo⟩, ⟨enc, hEnc⟩, hcv⟩ := zfsSendArgsValidate_none a env hval
      obtain ⟨t, tokenFS, h1, h2, h3, h4, h5, h6, h7, h8, h9⟩ :=
        validateCorresponds_none a env htok (hcv htok)
      rw [hEnc] at h8 h9
      exact ⟨t, tokenFS, h1, h2, h3, h4, h5, h6, h7, enc, hEnc, h8, h9⟩
    · rw [hval] at hok; simp at hok
  · intro hne sargs hok
    unfold ZFSSendModel at hok
    rcases hval : zfsSendArgsValidate a env with _ | e
    · exact hne hval
    · rw [hval] at hok; simp at hok

/-- Witness for C1 at a concrete accepted request: filesystem "p", full send
to "@s" with GUID 7, unencrypted, resume token present and consistent. -/
theorem C1_send_resume_token_validation_witness :
    ∃ t tokenFS,
      (SendValEnv.mk
          (.ok ⟨['p', '@', 's'], false, 0, true, 7, false, false⟩)
          (fun _ => .ok 7) (.ok false)).parse = .ok t ∧
      toNameSplitFS t.ToName = .ok tokenFS ∧
      (ZFSSendArgs.mk ['p'] none (some ⟨['@', 's'], 7⟩) (some false) ['x']).FS =
        tokenFS ∧
      t.HasFromGUID =
        (ZFSSendArgs.mk ['p'] none (some ⟨['@', 's'], 7⟩) (some false) ['x']).From.isSome ∧
      (∀ f, (ZFSSendArgs.mk ['p'] none (some ⟨['@', 's'], 7⟩) (some false) ['x']).From =
          some f → t.FromGUID = f.GUID) ∧
      t.HasToGUID = true ∧
      (∀ v, (ZFSSendArgs.mk ['p'] none (some ⟨['@', 's'], 7⟩) (some false) ['x']).To =
          some v → t.ToGUID = v.GUID) ∧
      (∃ b, (ZFSSendArgs.mk ['p'] none (some ⟨['@', 's'], 7⟩) (some false) ['x']).Encrypted =
          some b ∧
        (b = true → t.RawOK = true ∧ t.CompressOK = true) ∧
        (b = false → t.RawOK = false ∧ t.CompressOK = false)) :=
  (C1_send_resume_token_validation
      (ZFSSendArgs.mk ['p'] none (some ⟨['@', 's'], 7⟩) (some false) ['x'])
      (SendValEnv.mk
        (.ok ⟨['p', '@', 's'], false, 0, true, 7, false, false⟩)
        (fun _ => .ok 7) (.ok false))
      (by decide)).1 [['-', 't'], ['x']] rfl

/-! ## The sender resume-fallback claim -/

/-- C4: for a request carrying a resume token that passes the shape and
filter checks, an unsupported resume feature or a decoding-not-supported /
parsing-error parse failure discards the token and the send proceeds (the
dry and real sends are invoked with an empty token) with
`UsedResumeToken = false` on the wire; a corrupt token refuses the request
with a hard error, regardless of the later pipeline stages. -/
theorem C4_resume_fallback (r : SendReq) (env : SenderEnv) (dp : DatasetPath)
    (htok : r.ResumeToken ≠ [])
    (hfs : r.Filesystem ≠ [])
    (hto : r.To.head? = some '@' ∨ r.To.head? = some '#')
    (hfrom : r.From = [] ∨ r.From.head? = some '@' ∨ r.From.head? = some '#')
    (hfilter : filterCheckFS env r.Filesystem = .ok dp) :
    ((env.resumeSupported = .ok false ∨
        (env.resumeSupported = .ok true ∧
          (env.parse = .error .decodingNotSupported ∨
           env.parse = .error .parsingError))) →
       env.semAcquire = none →
       ∀ sz, env.sendDry [] = .ok sz →
       (r.DryRun = true ∨ ∃ strm, env.zfsSend [] = .ok strm) →
       ∃ res os, senderSend r env = .ok res os ∧ res.UsedResumeToken = false) ∧
    (env.resumeSupported = .ok true → env.parse = .error .corrupt →
       senderSend r env = .err .tokenCorrupt) := by
  have hto' : r.To ≠ [] := by
    rcases hto with h | h <;> (intro he; rw [he] at h; simp at h)
  have hcondTo : ¬¬(r.To.head? = some '@' ∨ r.To.head? = some '#') :=
    not_not_intro hto
  have hcondFrom : ¬(r.From ≠ [] ∧
      ¬(r.From.head? = some '@' ∨ r.From.head? = some '#')) := by
    rintro ⟨hne, hnd⟩
    rcases hfrom with h | h
    · exact hne h
    · exact hnd h
  have hsend : validateResumeTokenFlow r env = .notSupported →
      senderSend r env = senderSendTail r env [] := by
    intro hflow
    unfold senderSend
    rw [if_neg hfs, if_neg hto', if_neg hcondTo, if_neg hcondFrom, hfilter]
    simp only [hflow]
  constructor
  · intro hdisc hsem sz hdry hlast
    have hflow : validateResumeTokenFlow r env = .notSupported := by
      unfold validateResumeTokenFlow
      rw [if_neg htok]
      rcases hdisc with h | ⟨hsupp, hparse⟩
      · rw [h]
      · rw [hsupp]
        simp only
        rcases hparse with h | h <;> rw [h]
    have hmain := hsend hflow
    have htail : ∀ res, res = SendRes.mk (if sz = -1 then 0 else sz) false →
        (r.DryRun = true → senderSendTail r env [] = .ok res none) ∧
        (∀ strm, env.zfsSend [] = .ok strm → r.DryRun = false →
          senderSendTail r env [] = .ok res (some strm)) := by
      intro res hres
      unfold senderSendTail
      rw [hsem, hdry]
      simp only
      constructor
      · intro hd
        rw [hd]
        simp only [if_true]
        rw [hres]
        rfl
      · intro strm hstrm hd
        rw [hd]
        simp only [Bool.false_eq_true, if_false, hstrm]
        rw [hres]
        rfl
    obtain ⟨ht1, ht2⟩ := htail _ rfl
    rcases hdr : r.DryRun with _ | _
    · rcases hlast with hd | ⟨strm, hstrm⟩
      · rw [hdr] at hd; simp at hd
      · exact ⟨_, some strm, by rw [hmain]; exact ht2 strm hstrm hdr, rfl⟩
    · exact ⟨_, none, by rw [hmain]; exact ht1 hdr, rfl⟩
  · intro hsupp hparse
    have hflow : validateResumeTokenFlow r env = .hardErr .tokenCorrupt := by
      unfold validateResumeTokenFlow
      rw [if_neg htok, hsupp]
      simp only
      rw [hparse]
    unfold senderSend
    rw [if_neg hfs, if_neg hto', if_neg hcondTo, if_neg hcondFrom, hfilter]
    simp only [hflow]

/-- Witness for C4 at concrete inputs: with resume unsupported the send is
accepted with used-resume-token=false, and with a corrupt token it is
refused. -/
theorem C4_resume_fallback_witness :
    (∃ res os,
      senderSend ⟨['p'], [], ['@', 's'], ['x'], true⟩
        ⟨.ok true, .ok false, .error .corrupt, fun _ => .ok 7, none,
          fun _ => .ok 3, fun _ => .ok []⟩ = .ok res os ∧
      res.UsedResumeToken = false) ∧
    senderSend ⟨['p'], [], ['@', 's'], ['x'], true⟩
        ⟨.ok true, .ok true, .error .corrupt, fun _ => .ok 7, none,
          fun _ => .ok 3, fun _ => .ok []⟩ = .err .tokenCorrupt :=
  ⟨(C4_resume_fallback ⟨['p'], [], ['@', 's'], ['x'], true⟩
      ⟨.ok true, .ok false, .error .corrupt, fun _ => .ok 7, none,
        fun _ => .ok 3, fun _ => .ok []⟩ [['p']]
      (by decide) (by decide) (by decide) (by decide) rfl).1
      (Or.inl rfl) rfl 3 rfl (Or.inl rfl),
   (C4_resume_fallback ⟨['p'], [], ['@', 's'], ['x'], true⟩
      ⟨.ok true, .ok true, .error .corrupt, fun _ => .ok 7, none,
        fun _ => .ok 3, fun _ => .ok []⟩ [['p']]
      (by decide) (by decide) (by decide) (by decide) rfl).2 rfl rfl⟩

/-! ## The placeholder-walk claim -/

theorem walkStep_skip (rootNoClient lp : DatasetPath) (env : RecvEnv)
    (xs ys : List DatasetPath) (acc : List DatasetPath)
    (hxs : ∀ x ∈ xs, ¬(dpEqual x lp = true) ∧
      ∃ st, env.ph x = .ok st ∧ st.fsExists = true) :
    walkStep rootNoClient lp env (xs ++ ys) acc =
      walkStep rootNoClient lp env ys acc := by
  induction xs with
  | nil => rfl
  | cons x xs ih =>
    obtain ⟨hne, st, hst, hex⟩ := hxs x (by simp)
    rw [List.cons_append, walkStep, if_neg hne, hst]
    simp only [hex, if_true]
    exact ih (fun y hy => hxs y (by simp [hy]))

theorem walkStep_created (rootNoClient lp : DatasetPath) (env : RecvEnv)
    (hroot : dpHasPre lp rootNoClient = true) :
    ∀ rem : List DatasetPath, (∀ x ∈ rem, dpHasPre lp x = true) →
    ∀ acc : List DatasetPath,
      (∀ p ∈ acc, ∃ t, t ≠ [] ∧ p = rootNoClient ++ t) →
    ∀ p ∈ (walkStep rootNoClient lp env rem acc).1,
      ∃ t, t ≠ [] ∧ p = rootNoClient ++ t := by
  intro rem
  induction rem with
  | nil =>
    intro _ acc hacc p hp
    unfold walkStep at hp
    rw [List.mem_reverse] at hp
    exact hacc p hp
  | cons q rem ih =>
    intro hrem acc hacc p hp
    unfold walkStep at hp
    split at hp
    · rw [List.mem_reverse] at hp
      exact hacc p hp
    · split at hp
      · rw [List.mem_reverse] at hp
        exact hacc p hp
      · split at hp
        · exact ih (fun x hx => hrem x (by simp [hx])) acc hacc p hp
        · split at hp
          · rw [List.mem_reverse] at hp
            exact hacc p hp
          · next hnabove =>
            split at hp
            · rw [List.mem_reverse] at hp
              exact hacc p hp
            · refine ih (fun x hx => hrem x (by simp [hx])) (q :: acc) ?_ p hp
              intro p' hp'
              rcases List.mem_cons.mp hp' with h | h
              · subst h
                exact strictly_below_of_not_above lp rootNoClient p' hroot
                  (hrem p' (by simp)) hnabove
              · exact hacc p' h

theorem ancestorChain_mem (lp : DatasetPath) :
    ∀ x ∈ ancestorChain lp, dpHasPre lp x = true := by
  intro x hx
  unfold ancestorChain at hx
  rw [List.mem_map] at hx
  obtain ⟨i, _, hi⟩ := hx
  rw [← hi]
  exact dpHasPre_take lp (i + 1)

/-- C3: every path the placeholder walk creates lies strictly below the
root-without-client-component and carries the placeholder property after the
walk; and when the first missing visited path sits at or above that root,
the walk creates nothing and fails with "pool not imported" for a
single-component path (a pool root) and "root_fs does not exist"
otherwise. -/
theorem C3_placeholder_walk (rootNoClient lp : DatasetPath) (env : RecvEnv)
    (hroot : dpHasPre lp rootNoClient = true) :
    (∀ p ∈ (walkPlaceholders rootNoClient lp env).1,
       (∃ t, t ≠ [] ∧ p = rootNoClient ++ t) ∧
       placeholderAfterWalk env (walkPlaceholders rootNoClient lp env).1 p =
         true) ∧
    (∀ k st, 0 < k → k < lp.length →
       dpHasPre rootNoClient (lp.take k) = true →
       env.ph (lp.take k) = .ok st → st.fsExists = false →
       (∀ j, j + 1 < k → ∃ s, env.ph (lp.take (j + 1)) = .ok s ∧
         s.fsExists = true) →
       walkPlaceholders rootNoClient lp env =
         ([], some (if k = 1 then VisitErr.poolNotImported (lp.take k)
                    else VisitErr.rootFsDoesNotExist rootNoClient))) := by
  constructor
  · intro p hp
    refine ⟨walkStep_created rootNoClient lp env hroot (ancestorChain lp)
      (ancestorChain_mem lp) [] (by simp) p hp, ?_⟩
    unfold placeholderAfterWalk
    rw [if_pos hp]
  · intro k st hk hklen habove hst hmiss hprev
    have hqlen : (lp.take k).length = k := by
      rw [List.length_take]
      omega
    have hqne : ¬(dpEqual (lp.take k) lp = true) := by
      rw [dpEqual_iff]
      intro he
      have hl := congrArg List.length he
      rw [hqlen] at hl
      omega
    have hchain : ancestorChain lp =
        ((List.range (k - 1)).map (fun i => lp.take (i + 1))) ++
        (lp.take k ::
          (List.range (lp.length - k)).map (fun i => lp.take (k + i + 1))) := by
      unfold ancestorChain
      have h1 : lp.length = k + (lp.length - k) := by omega
      have h2 : k = (k - 1) + 1 := by omega
      have hA : (List.range k).map (fun i => lp.take (i + 1)) =
          ((List.range (k - 1)).map (fun i => lp.take (i + 1))) ++
            [lp.take k] := by
        conv_lhs => rw [h2, List.range_succ]
        rw [List.map_append]
        congr 1
        simp only [List.map_cons, List.map_nil]
        rw [← h2]
      conv_lhs => rw [h1, List.range_add, List.map_append, List.map_map]
      rw [hA, List.append_assoc, List.singleton_append]
      rfl
    have hxs : ∀ x ∈ (List.range (k - 1)).map (fun i => lp.take (i + 1)),
        ¬(dpEqual x lp = true) ∧ ∃ s, env.ph x = .ok s ∧ s.fsExists = true := by
      intro x hx
      rw [List.mem_map] at hx
      obtain ⟨j, hj, hx⟩ := hx
      rw [List.mem_range] at hj
      obtain ⟨s, hs, hex⟩ := hprev j (by omega)
      refine ⟨?_, ?_⟩
      · rw [← hx, dpEqual_iff]
        intro he
        have hl := congrArg List.length he
        rw [List.length_take] at hl
        omega
      · rw [← hx]
        exact ⟨s, hs, hex⟩
    unfold walkPlaceholders
    rw [hchain, walkStep_skip rootNoClient lp env _ _ [] hxs]
    unfold walkStep
    rw [if_neg hqne, hst]
    simp only [hmiss, Bool.false_eq_true, if_false, if_pos habove,
      List.reverse_nil, hqlen]

/-- Witness for C3 at concrete inputs: below root `r`, the walk towards
`r/c/a/b` creates exactly the strictly-below placeholder `r/c/a`; and with
the pool root missing, the walk creates nothing and fails with "pool not
imported". -/
theorem C3_placeholder_walk_witness :
    (∀ p ∈ (walkPlaceholders [['r']] [['r'], ['c'], ['a'], ['b']]
        walkDemoEnv).1,
       (∃ t, t ≠ [] ∧ p = [['r']] ++ t) ∧
       placeholderAfterWalk walkDemoEnv
         (walkPlaceholders [['r']] [['r'], ['c'], ['a'], ['b']]
           walkDemoEnv).1 p = true) ∧
    walkPlaceholders [['r']] [['r'], ['c'], ['a'], ['b']] walkDemoEnvAbsent =
      ([], some (if 1 = 1 then
          VisitErr.poolNotImported ([['r'], ['c'], ['a'], ['b']].take 1)
        else VisitErr.rootFsDoesNotExist [['r']])) :=
  ⟨(C3_placeholder_walk [['r']] [['r'], ['c'], ['a'], ['b']] walkDemoEnv
      (by decide)).1,
   (C3_placeholder_walk [['r']] [['r'], ['c'], ['a'], ['b']] walkDemoEnvAbsent
      (by decide)).2 1 ⟨false, false⟩ (by decide) (by decide) (by decide) rfl
      rfl (by intro j hj; exact absurd hj (by omega))⟩

/-! ## The placeholder-clearing receive claim -/

theorem receiveAfterToken_post (lp : DatasetPath) (env : RecvEnv)
    (created : List DatasetPath) (post : List RAction) (rollback : Bool) :
    ∃ tail, (receiveAfterToken lp env created post rollback).post =
        post ++ tail ∧
      ∀ q opts, RAction.recv q opts ∈ tail →
        opts.RollbackAndForceRecv = rollback := by
  unfold receiveAfterToken
  rcases env.resumeRecvSupported with e | sp
  · exact ⟨[], by simp, by simp⟩
  · rcases env.semAcquire with _ | e
    · rcases env.recvErr with _ | e
      · refine ⟨[RAction.recv lp ⟨rollback, sp⟩], by simp, ?_⟩
        intro q opts hmem
        rw [List.mem_singleton] at hmem
        injection hmem with h1 h2
        subst h2
        rfl
      · refine ⟨[RAction.recv lp ⟨rollback, sp⟩], by simp, ?_⟩
        intro q opts hmem
        rw [List.mem_singleton] at hmem
        injection hmem with h1 h2
        subst h2
        rfl
    · exact ⟨[], by simp, by simp⟩

theorem receiveAfterClear_post (lp : DatasetPath) (req : ReceiveReq)
    (env : RecvEnv) (created : List DatasetPath) (post : List RAction)
    (rollback : Bool) (phExists : Bool) :
    ∃ tail, (receiveAfterClear lp req env created post rollback
        phExists).post = post ++ tail ∧
      ∀ q opts, RAction.recv q opts ∈ tail →
        opts.RollbackAndForceRecv = rollback := by
  unfold receiveAfterClear
  by_cases hc : (req.ClearResumeToken && phExists) = true
  · rw [if_pos hc]
    rcases env.clearTokenErr with _ | e
    · obtain ⟨tail, h1, h2⟩ := receiveAfterToken_post lp env created
        (post ++ [RAction.clearResumeToken lp]) rollback
      refine ⟨[RAction.clearResumeToken lp] ++ tail, ?_, ?_⟩
      · rw [h1, List.append_assoc]
      · intro q opts hmem
        rcases List.mem_append.mp hmem with h | h
        · simp at h
        · exact h2 q opts h
    · exact ⟨[RAction.clearResumeToken lp], rfl, by simp⟩
  · rw [if_neg hc]
    exact receiveAfterToken_post lp env created post rollback

/-- C6: when the mapped target exists and is a placeholder after a clean
walk, the receive clears the placeholder property as its first post-walk
action and any receive invocation carries rollback-and-force; if clearing
the property fails, the receive aborts with that error and the stream is
never consumed (no receive action occurs). -/
theorem C6_placeholder_receive (rootNoClient clientRoot : DatasetPath)
    (req : ReceiveReq) (env : RecvEnv) (lp : DatasetPath)
    (hmap : subrootMapToLocal clientRoot req.Filesystem = .ok lp)
    (hwalk : (walkPlaceholders rootNoClient lp env).2 = none)
    (hph : env.ph lp = .ok ⟨true, true⟩) :
    (∀ e, env.setPlaceholderErr = some e →
       (receiverReceive rootNoClient clientRoot req env).result =
           some (.clearPlaceholderFailed e) ∧
       (receiverReceive rootNoClient clientRoot req env).post =
           [RAction.setPlaceholder lp false] ∧
       ∀ q opts, RAction.recv q opts ∉
           (receiverReceive rootNoClient clientRoot req env).post) ∧
    (env.setPlaceholderErr = none →
       ∃ rest, (receiverReceive rootNoClient clientRoot req env).post =
           RAction.setPlaceholder lp false :: rest ∧
         ∀ q opts, RAction.recv q opts ∈ rest →
           opts.RollbackAndForceRecv = true) := by
  rcases hw : walkPlaceholders rootNoClient lp env with ⟨created, r2⟩
  rw [hw] at hwalk
  have hr2 : r2 = none := hwalk
  subst hr2
  have hstep : receiverReceive rootNoClient clientRoot req env =
      (match env.setPlaceholderErr with
       | some e => ReceiveResult.mk created [RAction.setPlaceholder lp false]
           (some (.clearPlaceholderFailed e))
       | none => receiveAfterClear lp req env created
           [RAction.setPlaceholder lp false] true true) := by
    unfold receiverReceive
    rw [hmap]
    simp only [hw, hph]
    rfl
  constructor
  · intro e he
    rw [he] at hstep
    simp only at hstep
    rw [hstep]
    refine ⟨rfl, rfl, ?_⟩
    intro q opts hmem
    simp at hmem
  · intro he
    rw [he] at hstep
    simp only at hstep
    obtain ⟨tail, h1, h2⟩ := receiveAfterClear_post lp req env created
      [RAction.setPlaceholder lp false] true true
    rw [hstep, h1]
    exact ⟨tail, by rw [List.singleton_append], h2⟩

/-- Witness for C6 at concrete inputs: the target `r/c/a` (client root
`r/c`) is an existing placeholder; with a clean environment the first
post-walk action clears the placeholder and the receive runs with
rollback-and-force; with a failing clear, the receive aborts without any
receive action. -/
theorem C6_placeholder_receive_witness :
    (∃ rest,
      (receiverReceive [['r']] [['r'], ['c']] ⟨['a'], false⟩ recvDemoEnv).post =
        RAction.setPlaceholder [['r'], ['c'], ['a']] false :: rest ∧
      ∀ q opts, RAction.recv q opts ∈ rest →
        opts.RollbackAndForceRecv = true) ∧
    ((receiverReceive [['r']] [['r'], ['c']] ⟨['a'], false⟩
        recvDemoEnvClearFails).result =
      some (.clearPlaceholderFailed "permission denied") ∧
     (receiverReceive [['r']] [['r'], ['c']] ⟨['a'], false⟩
        recvDemoEnvClearFails).post =
      [RAction.setPlaceholder [['r'], ['c'], ['a']] false] ∧
     ∀ q opts, RAction.recv q opts ∉
        (receiverReceive [['r']] [['r'], ['c']] ⟨['a'], false⟩
          recvDemoEnvClearFails).post) :=
  ⟨(C6_placeholder_receive [['r']] [['r'], ['c']] ⟨['a'], false⟩ recvDemoEnv
      [['r'], ['c'], ['a']] rfl rfl rfl).2 rfl,
   (C6_placeholder_receive [['r']] [['r'], ['c']] ⟨['a'], false⟩
      recvDemoEnvClearFails [['r'], ['c'], ['a']] rfl rfl rfl).1
      "permission denied" rfl⟩

/-! ## The receiver listing claim -/

theorem listLoop_entries (root : DatasetPath) (env : ListEnv) :
    ∀ xs entries, listLoop root env xs = .ok entries →
      ∀ e ∈ entries, ∃ a ∈ xs, e.path = dpTrimPre a root := by
  intro xs
  induction xs with
  | nil =>
    intro entries h e he
    unfold listLoop at h
    injection h with h
    subst h
    simp at he
  | cons a rest ih =>
    intro entries h e he
    unfold listLoop at h
    rcases hph : env.ph a with er | st
    · rw [hph] at h; simp at h
    · rw [hph] at h
      simp only at h
      by_cases hex : st.fsExists = false
      · rw [if_pos hex] at h; simp at h
      · rw [if_neg hex] at h
        rcases htok : env.resumeTok a with er | tok
        · rw [htok] at h; simp at h
        · rw [htok] at h
          simp only at h
          rcases hrest : listLoop root env rest with er | es
          · rw [hrest] at h; simp at h
          · rw [hrest] at h
            simp only at h
            injection h with h
            subst h
            rcases List.mem_cons.mp he with hh | hh
            · subst hh
              exact ⟨a, by simp, rfl⟩
            · obtain ⟨a', ha', hp⟩ := ih es hrest e hh
              exact ⟨a', by simp [ha'], hp⟩

/-- C10: the subroot filter passes exactly the strict descendants of the
client root, the root itself never enters the per-filesystem loop (so the
placeholder-consistency check is never applied to it), and every entry the
receiver's ListFilesystems returns is the root-trimmed image of a strict
descendant of the root. -/
theorem C10_subroot_strict_descendants (root : DatasetPath) (env : ListEnv) :
    (∀ p, subrootFilter root p = true ↔ ((∃ t, root ++ t = p) ∧ p ≠ root)) ∧
    root ∉ env.allFS.filter (fun p => subrootFilter root p) ∧
    (∀ entries, receiverListFilesystems root env = .ok entries →
       ∀ e ∈ entries, ∃ a, a ∈ env.allFS ∧ (∃ t, t ≠ [] ∧ a = root ++ t) ∧
         e.path = dpTrimPre a root) := by
  have hfilt : ∀ p, subrootFilter root p = true ↔
      ((∃ t, root ++ t = p) ∧ p ≠ root) := by
    intro p
    unfold subrootFilter
    constructor
    · intro h
      rw [Bool.and_eq_true] at h
      obtain ⟨h1, h2⟩ := h
      refine ⟨(dpHasPre_iff p root).mp h1, ?_⟩
      intro he
      subst he
      have hq := (dpEqual_iff p p).mpr rfl
      rw [hq] at h2
      simp at h2
    · rintro ⟨⟨t, ht⟩, hne⟩
      rw [Bool.and_eq_true]
      refine ⟨(dpHasPre_iff p root).mpr ⟨t, ht⟩, ?_⟩
      cases hdp : dpEqual p root
      · rfl
      · exact absurd ((dpEqual_iff p root).mp hdp) hne
  refine ⟨hfilt, ?_, ?_⟩
  · intro hmem
    rw [List.mem_filter] at hmem
    obtain ⟨_, h2⟩ := hmem
    obtain ⟨_, hne⟩ := (hfilt root).mp h2
    exact hne rfl
  · intro entries h e he
    obtain ⟨a, ha, hp⟩ := listLoop_entries root env _ entries h e he
    rw [List.mem_filter] at ha
    obtain ⟨hmem, hpass⟩ := ha
    obtain ⟨⟨t, ht⟩, hne⟩ := (hfilt a).mp hpass
    refine ⟨a, hmem, ⟨t, ?_, ht.symm⟩, hp⟩
    intro htnil
    subst htnil
    rw [List.append_nil] at ht
    exact hne ht.symm

/-- Witness for C10 at a concrete universe {r, r/a, x} with root r: the
listing returns exactly the trimmed strict descendant r/a. -/
theorem C10_subroot_strict_descendants_witness :
    (subrootFilter [['r']] [['r'], ['a']] = true ↔
      ((∃ t, [['r']] ++ t = [(['r'] : Comp), ['a']]) ∧
        [(['r'] : Comp), ['a']] ≠ [['r']])) ∧
    [['r']] ∉ listDemoEnv.allFS.filter (fun p => subrootFilter [['r']] p) ∧
    ∀ e ∈ [FSEntry.mk [['a']] false []],
      ∃ a, a ∈ listDemoEnv.allFS ∧ (∃ t, t ≠ [] ∧ a = [['r']] ++ t) ∧
        e.path = dpTrimPre a [['r']] :=
  ⟨(C10_subroot_strict_descendants [['r']] listDemoEnv).1 [['r'], ['a']],
   (C10_subroot_strict_descendants [['r']] listDemoEnv).2.1,
   (C10_subroot_strict_descendants [['r']] listDemoEnv).2.2
     [FSEntry.mk [['a']] false []] rfl⟩

end ZRepl
